import Mathlib

/-
Verification of the arugio entity state-synchronization layer.

Shallow embedding of the three Rust crates:
  * arugio_shared/src/lib.rs   (components, physics systems)
  * arugio_server/src/main.rs  (spawn, connect, input, broadcast, receive)
  * arugio_client/src/main.rs  (welcome handling, receive, broadcast)

Conventions of the embedding:
  * bevy's `Vec2` (f32 pairs) is idealized as a pair of rationals, so the
    algebra of the update formulas is exact.
  * An ECS world is a list of ball records in query-iteration order; bevy
    commands (`cmd.spawn`, `cmd.insert_one`) are applied immediately at the
    point in the tick where the stage boundary would flush them.
  * bevy 0.4 `Changed<T>` is a per-frame mutation flag: it is set by any
    mutable dereference of the component or by component insertion,
    irrespective of whether the stored value actually differs, and it is
    cleared when the frame ends.  The `TrackedBall` model below carries
    these flags explicitly.
  * `rand::random::<f32>()` values are passed in as rational parameters,
    constrained to `[0, 1)` where a claim needs the range.
-/

set_option autoImplicit false

namespace Arugio

/-- 2D vector with rational components, modelling `bevy::math::Vec2`. -/
@[ext]
structure Vec2 where
  x : ℚ
  y : ℚ
  deriving DecidableEq, Repr

/-- `Vec2::zero()` / `Default::default()` for vector components. -/
def Vec2.zero : Vec2 := ⟨0, 0⟩

/-- `BallId(pub u32)` from arugio_shared; values assigned stay far below 2^32. -/
abbrev BallId := ℕ

/-- The constant `speed = 2.0` of `update_velocity_system`. -/
def speed : ℚ := 2

/-- The constant factor `15.0` of `update_position_system`. -/
def posScale : ℚ := 15

/-- Per-ball body of `update_velocity_system` (arugio_shared/src/lib.rs):
`velocity.0 = velocity.0 * (1.0 - delta * speed) + target_velocity.0 * (delta * speed)`. -/
def updateVelocity (velocity targetVelocity : Vec2) (delta : ℚ) : Vec2 :=
  ⟨velocity.x * (1 - delta * speed) + targetVelocity.x * (delta * speed),
   velocity.y * (1 - delta * speed) + targetVelocity.y * (delta * speed)⟩

/-- Per-ball body of `update_position_system` (arugio_shared/src/lib.rs):
`pos.0 += vel.0 * time.delta_seconds() * 15.0`. -/
def updatePosition (pos vel : Vec2) (delta : ℚ) : Vec2 :=
  ⟨pos.x + vel.x * delta * posScale, pos.y + vel.y * delta * posScale⟩

/-- `m` lies strictly between `a` and `b` (in either order). -/
def strictlyBetween (a m b : ℚ) : Prop := (a < m ∧ m < b) ∨ (b < m ∧ m < a)

/-! ### Server-side entity model (arugio_server/src/main.rs) -/

/-- A server ball: the `BallBundle` components plus the optional
`NetworkHandle(u32)` marker that binds a ball to one connection. -/
structure SBall where
  id : BallId
  position : Vec2
  velocity : Vec2
  targetVelocity : Vec2
  networkHandle : Option ℕ
  deriving DecidableEq, Repr

/-- The query `Query<&BallId, Without<NetworkHandle>>`: balls without a handle,
in query-iteration order. -/
def unownedBalls (w : List SBall) : List SBall :=
  w.filter (fun b => b.networkHandle.isNone)

/-- Number of currently-unowned balls (the `count` loop of `spawn_ball_system`). -/
def unownedCount (w : List SBall) : ℕ :=
  (unownedBalls w).length

/-- The `highest_id` accumulator of `spawn_ball_system`: it folds `max` over the
ids of the UNOWNED balls only, starting from `0`. -/
def highestUnownedId (w : List SBall) : ℕ :=
  (unownedBalls w).foldl (fun acc b => max acc b.id) 0

/-- `spawn_ball_system` (arugio_server/src/main.rs, lines 87-108): count the
unowned balls and their highest id; if fewer than 3 exist, spawn one ball with
id `highest_id + 1`, position `(r1*10-5, r2*10-5)` for fresh random draws
`r1, r2` in `[0,1)`, and default (zero) velocity and target velocity. -/
def spawnBallSystem (w : List SBall) (r1 r2 : ℚ) : List SBall :=
  if unownedCount w < 3 then
    w ++ [{ id := highestUnownedId w + 1,
            position := ⟨r1 * 10 - 5, r2 * 10 - 5⟩,
            velocity := Vec2.zero,
            targetVelocity := Vec2.zero,
            networkHandle := none }]
  else
    w

/-- `spawn_ball_system` iterated over `n` consecutive ticks (the random draws do
not affect ownership, so they are fixed at `0` here). -/
def spawnIter (w : List SBall) : ℕ → List SBall
  | 0 => w
  | n + 1 => spawnIter (spawnBallSystem w 0 0) n

/-- The reliable server-to-client control message (`ServerMessage` in
arugio_shared): `Welcome(BallId)`. -/
inductive ServerMessage where
  | welcome (id : BallId)
  deriving DecidableEq, Repr

/-- `unowned_balls.iter().next()` in `handle_network_events_system`: the first
unowned ball in query order, if any. -/
def firstUnowned (w : List SBall) : Option SBall :=
  (unownedBalls w).head?

/-- `cmd.insert_one(entity, NetworkHandle(*handle))` applied to the entity
returned by `unowned_balls.iter().next()`: the first unowned ball in the world
receives the handle, every other ball is untouched. -/
def bindFirstUnowned (w : List SBall) (h : ℕ) : List SBall :=
  match w with
  | [] => []
  | b :: rest =>
    if b.networkHandle.isNone then { b with networkHandle := some h } :: rest
    else b :: bindFirstUnowned rest h

/-- The `Connected(handle)` arm of `handle_network_events_system`
(arugio_server/src/main.rs, lines 62-85).  `none` models the
`.expect("No unowned balls")` panic that aborts the process; otherwise the
first unowned ball is bound to the peer and a reliable `Welcome` carrying that
ball's id is sent to that peer. -/
def handleConnectedEvent (w : List SBall) (h : ℕ) : Option (List SBall × ServerMessage) :=
  match firstUnowned w with
  | none => none
  | some b => some (bindFirstUnowned w h, ServerMessage.welcome b.id)

/-- Number of balls bound to connection handle `h`. -/
def ownedByCount (w : List SBall) (h : ℕ) : ℕ :=
  (w.filter (fun b => decide (b.networkHandle = some h))).length

/-- A replicated component payload, tagged by kind, as carried on the three
unreliable channels `(BallId, Position)`, `(BallId, Velocity)`,
`(BallId, TargetVelocity)`. -/
inductive Comp where
  | position (v : Vec2)
  | velocity (v : Vec2)
  | targetVelocity (v : Vec2)
  deriving DecidableEq, Repr

/-- `cmd.insert_one(entity, component)` on a server ball: overwrite the one
component the message carries, leaving the rest of the ball unchanged. -/
def SBall.setComp (b : SBall) (c : Comp) : SBall :=
  match c with
  | .position v => { b with position := v }
  | .velocity v => { b with velocity := v }
  | .targetVelocity v => { b with targetVelocity := v }

/-- The `HashMap<BallId, Entity>` lookup `balls.get(&ball_id)` on the server:
find the ball with the given id. -/
def findByIdS (w : List SBall) (id : BallId) : Option SBall :=
  w.find? (fun b => b.id == id)

/-- Overwrite the component of the ball with the given id (the effect of
`cmd.insert_one` on the looked-up entity). -/
def applyCompS (w : List SBall) (id : BallId) (c : Comp) : List SBall :=
  match w with
  | [] => []
  | b :: rest =>
    if b.id == id then b.setComp c :: rest else b :: applyCompS rest id c

/-- One inbound `(ball_id, component)` message processed by the server's
`read_component_channel_system` (arugio_server/src/main.rs, lines 133-152):
if a ball with that id exists its component is overwritten verbatim (no
validation, and the sending peer is never consulted); otherwise the message is
dropped and the world is returned unchanged. -/
def serverReadComponent (w : List SBall) (id : BallId) (c : Comp) : List SBall :=
  match findByIdS w id with
  | some _ => applyCompS w id c
  | none => w

/-! ### Client-side entity model (arugio_client/src/main.rs) -/

/-- A client ball: the `BallBundle` components plus the `LocalPlayer`
zero-sized marker, represented as a flag. -/
structure CBall where
  id : BallId
  position : Vec2
  velocity : Vec2
  targetVelocity : Vec2
  localPlayer : Bool
  deriving DecidableEq, Repr

/-- `BallBundle::new(ball_id)` (arugio_shared/src/lib.rs): all components
default, and a freshly spawned entity carries no `LocalPlayer` marker. -/
def CBall.new (id : BallId) : CBall :=
  { id := id, position := Vec2.zero, velocity := Vec2.zero,
    targetVelocity := Vec2.zero, localPlayer := false }

/-- Client-side lookup of a ball by id (`balls.iter().filter(...).next()` in
the welcome handler, and the `HashMap` lookup in the component reader). -/
def findByIdC (w : List CBall) (id : BallId) : Option CBall :=
  w.find? (fun b => b.id == id)

/-- `cmd.insert_one(entity, LocalPlayer)` on the entity found by id. -/
def markLocalPlayer (w : List CBall) (id : BallId) : List CBall :=
  match w with
  | [] => []
  | b :: rest =>
    if b.id == id then { b with localPlayer := true } :: rest
    else b :: markLocalPlayer rest id

/-- The `ServerMessage::Welcome(your_ball_id)` arm of
`read_server_message_channel_system` (arugio_client/src/main.rs, lines
124-152): if a ball with that id exists it is marked `LocalPlayer`, otherwise
a fresh `BallBundle` is spawned already carrying `LocalPlayer`. -/
def processWelcome (w : List CBall) (id : BallId) : List CBall :=
  match findByIdC w id with
  | some _ => markLocalPlayer w id
  | none => w ++ [{ CBall.new id with localPlayer := true }]

/-- A sequence of inbound `Welcome` messages processed in order (each one
seeing the world state left by the previous one). -/
def processWelcomes (w : List CBall) : List BallId → List CBall
  | [] => w
  | id :: rest => processWelcomes (processWelcome w id) rest

/-- Number of balls carrying the `LocalPlayer` marker. -/
def countLocal (w : List CBall) : ℕ :=
  (w.filter (fun b => b.localPlayer)).length

/-- `cmd.insert_one(entity, component)` on a client ball. -/
def CBall.setComp (b : CBall) (c : Comp) : CBall :=
  match c with
  | .position v => { b with position := v }
  | .velocity v => { b with velocity := v }
  | .targetVelocity v => { b with targetVelocity := v }

/-- Overwrite the component of the client ball with the given id. -/
def applyCompC (w : List CBall) (id : BallId) (c : Comp) : List CBall :=
  match w with
  | [] => []
  | b :: rest =>
    if b.id == id then b.setComp c :: rest else b :: applyCompC rest id c

/-- One inbound `(ball_id, component)` message processed by the client's
`read_component_channel_system` (arugio_client/src/main.rs, lines 97-122):
if the ball exists and is `LocalPlayer` the message is skipped (`continue`);
if it exists without the marker the component is overwritten; if it does not
exist, `cmd.spawn(BallBundle::new(ball_id)).with(component)` creates a new
non-local ball carrying the received component. -/
def clientReadComponent (w : List CBall) (id : BallId) (c : Comp) : List CBall :=
  match findByIdC w id with
  | some b => if b.localPlayer then w else applyCompC w id c
  | none => w ++ [(CBall.new id).setComp c]

/-! ### Change-detection model for the server broadcast path

bevy 0.4's `Changed<T>` query filter is driven by a per-frame mutation flag:
dereferencing a component through `Mut<T>` (as `unowned_ball_input_system`,
`update_velocity_system` and `update_position_system` all do, every tick,
for every matching ball) sets the flag whether or not the stored value
changes, and the flag is cleared when the frame ends.  The flags for the two
broadcast components are carried explicitly. -/

/-- One unowned server ball together with the bevy mutation flags of its two
broadcast components (`Position`, `TargetVelocity`). -/
structure TrackedBall where
  id : BallId
  position : Vec2
  posChanged : Bool
  velocity : Vec2
  targetVelocity : Vec2
  tvChanged : Bool
  deriving DecidableEq, Repr

/-- `unowned_ball_input_system` (arugio_server/src/main.rs, lines 110-117) for
one unowned ball: the target velocity is written through `Mut<TargetVelocity>`,
which sets the mutation flag regardless of the value written. -/
def writeTargetVelocity (b : TrackedBall) (v : Vec2) : TrackedBall :=
  { b with targetVelocity := v, tvChanged := true }

/-- `update_velocity_system` followed by `update_position_system` for one
ball: both write through `Mut<T>` unconditionally, so `pos.0 += ...` flags the
position as changed even when the increment is zero. -/
def runPhysics (b : TrackedBall) (delta : ℚ) : TrackedBall :=
  let v := updateVelocity b.velocity b.targetVelocity delta
  { b with velocity := v,
           position := updatePosition b.position v delta,
           posChanged := true }

/-- `broadcast_changes_system` (arugio_server/src/main.rs, lines 119-131) for
one ball: emit an `(id, TargetVelocity)` message if the target-velocity flag
is set and an `(id, Position)` message if the position flag is set. -/
def broadcastChanges (b : TrackedBall) : List (BallId × Comp) :=
  (if b.tvChanged then [(b.id, Comp.targetVelocity b.targetVelocity)] else []) ++
  (if b.posChanged then [(b.id, Comp.position b.position)] else [])

/-- bevy clears the change trackers when the frame ends. -/
def clearTrackers (b : TrackedBall) : TrackedBall :=
  { b with posChanged := false, tvChanged := false }

/-- One full server tick for one unowned ball: the wander input writes the
target velocity, physics runs, the POST_UPDATE broadcast reads the flags, and
the frame-end clears them.  Returns the next state and the emitted messages. -/
def serverTick (b : TrackedBall) (tvInput : Vec2) (delta : ℚ) :
    TrackedBall × List (BallId × Comp) :=
  let b1 := writeTargetVelocity b tvInput
  let b2 := runPhysics b1 delta
  (clearTrackers b2, broadcastChanges b2)

/-- A run of consecutive server ticks, one wander input per tick, collecting
all broadcast messages in order. -/
def serverTicks (b : TrackedBall) (delta : ℚ) :
    List Vec2 → TrackedBall × List (BallId × Comp)
  | [] => (b, [])
  | v :: vs =>
    let s := serverTick b v delta
    let rest := serverTicks s.1 delta vs
    (rest.1, s.2 ++ rest.2)

/-- Number of `TargetVelocity` broadcasts in a message list. -/
def tvBroadcastCount (msgs : List (BallId × Comp)) : ℕ :=
  (msgs.filter (fun m => match m.2 with | Comp.targetVelocity _ => true | _ => false)).length

/-- Number of `Position` broadcasts in a message list. -/
def posBroadcastCount (msgs : List (BallId × Comp)) : ℕ :=
  (msgs.filter (fun m => match m.2 with | Comp.position _ => true | _ => false)).length

/-! ### Concrete states used by counterexamples and witnesses -/

/-- An unowned tracked ball at rest with clear change flags. -/
def restBall : TrackedBall :=
  { id := 1, position := Vec2.zero, posChanged := false,
    velocity := Vec2.zero, targetVelocity := Vec2.zero, tvChanged := false }

/-- A server world of three balls with ids 1, 2, 3 where the ball holding the
highest id (3) is bound to connection 7 and the other two are unowned. -/
def highOwnedWorld : List SBall :=
  [{ id := 1, position := Vec2.zero, velocity := Vec2.zero,
     targetVelocity := Vec2.zero, networkHandle := none },
   { id := 2, position := Vec2.zero, velocity := Vec2.zero,
     targetVelocity := Vec2.zero, networkHandle := none },
   { id := 3, position := Vec2.zero, velocity := Vec2.zero,
     targetVelocity := Vec2.zero, networkHandle := some 7 }]

/-- A server world of two unowned balls with ids 1 and 2. -/
def twoUnownedWorld : List SBall :=
  [{ id := 1, position := Vec2.zero, velocity := Vec2.zero,
     targetVelocity := Vec2.zero, networkHandle := none },
   { id := 2, position := Vec2.zero, velocity := Vec2.zero,
     targetVelocity := Vec2.zero, networkHandle := none }]

/-- A server world with a single unowned ball of id 4. -/
def oneUnownedWorld : List SBall :=
  [{ id := 4, position := Vec2.zero, velocity := Vec2.zero,
     targetVelocity := Vec2.zero, networkHandle := none }]

/-- A client world whose only ball (id 1) is the local player. -/
def localWorld : List CBall := [{ CBall.new 1 with localPlayer := true }]

/-- A client world whose only ball (id 2) is a passive replica. -/
def remoteWorld : List CBall := [CBall.new 2]

/-! ### Physics lemmas and claims C5, C6 -/

/-- Scalar core of the contraction argument for one axis of `updateVelocity`. -/
theorem advance_axis_between (a b dt : ℚ) (h0 : 0 < dt) (h1 : dt * speed < 1)
    (hne : a ≠ b) : strictlyBetween a (a * (1 - dt * speed) + b * (dt * speed)) b := by
  have hs : 0 < dt * speed := by
    have hsp : (0:ℚ) < speed := by norm_num [speed]
    positivity
  rcases lt_or_gt_of_ne hne with hab | hab
  · exact Or.inl ⟨by nlinarith, by nlinarith⟩
  · exact Or.inr ⟨by nlinarith, by nlinarith⟩

/-- When `dt * speed = 1` the velocity update lands exactly on the target axis value. -/
theorem advance_axis_limit (a b dt : ℚ) (h : dt * speed = 1) :
    a * (1 - dt * speed) + b * (dt * speed) = b := by
  rw [h]; ring

/-- C5: one velocity-update step produces exactly
`v*(1 - dt*rate) + t*(dt*rate)` with `rate = 2`, one position-update step
produces exactly `position + velocity*dt*scale` with `scale = 15`, and the
position is unchanged for `dt = 0` or zero velocity.  Both steps are pure
Lean functions, hence deterministic in their inputs. -/
theorem physics_step_exact (p v t : Vec2) (dt : ℚ) :
    updateVelocity v t dt =
      ⟨v.x * (1 - dt * 2) + t.x * (dt * 2), v.y * (1 - dt * 2) + t.y * (dt * 2)⟩ ∧
    updatePosition p v dt = ⟨p.x + v.x * dt * 15, p.y + v.y * dt * 15⟩ ∧
    updatePosition p v 0 = p ∧
    updatePosition p Vec2.zero dt = p := by
  refine ⟨rfl, rfl, ?_, ?_⟩
  · ext <;> simp [updatePosition]
  · ext <;> simp [updatePosition, Vec2.zero]

/-- C6 counterexample: at `v = (0,0)`, `t = (1,1)`, `dt = 1` (so `dt > 0` as
the claim requires but `dt*rate = 2`), the updated x-velocity is `2`, which
neither lies strictly between `v.x = 0` and `t.x = 1` nor equals the target,
and `dt*rate` is not `1`; the update overshoots past the target. -/
theorem velocity_contraction_cex :
    (0:ℚ) < 1 ∧
    (updateVelocity ⟨0, 0⟩ ⟨1, 1⟩ 1).x = 2 ∧
    ¬ (strictlyBetween 0 ((updateVelocity ⟨0, 0⟩ ⟨1, 1⟩ 1).x) 1 ∨
       ((1:ℚ) * speed = 1 ∧ (updateVelocity ⟨0, 0⟩ ⟨1, 1⟩ 1).x = 1)) := by
  refine ⟨by norm_num, by norm_num [updateVelocity, speed], ?_⟩
  simp only [updateVelocity, speed, strictlyBetween]
  norm_num

/-- C6 (amended): the velocity update is a contraction toward the target only
for steps with `dt * rate < 1`: for such `dt > 0` the updated velocity lies
strictly between `v` and `t` on every axis where they differ, and when
`dt * rate = 1` it equals `t` exactly.  (For `dt * rate > 1` the update can
overshoot past the target, see the counterexample.) -/
theorem velocity_update_contraction (v t : Vec2) (dt : ℚ) (h0 : 0 < dt) :
    (dt * speed < 1 →
      (v.x ≠ t.x → strictlyBetween v.x ((updateVelocity v t dt).x) t.x) ∧
      (v.y ≠ t.y → strictlyBetween v.y ((updateVelocity v t dt).y) t.y)) ∧
    (dt * speed = 1 → updateVelocity v t dt = t) := by
  constructor
  · intro h1
    exact ⟨fun hne => advance_axis_between v.x t.x dt h0 h1 hne,
           fun hne => advance_axis_between v.y t.y dt h0 h1 hne⟩
  · intro h
    ext
    · exact advance_axis_limit v.x t.x dt h
    · exact advance_axis_limit v.y t.y dt h

/-- Witness for C6 (amended) at `v = (0,0)`, `t = (1,1)`, `dt = 1/4`. -/
theorem velocity_update_contraction_witness :
    strictlyBetween 0 ((updateVelocity ⟨0, 0⟩ ⟨1, 1⟩ (1/4)).x) 1 :=
  ((velocity_update_contraction ⟨0, 0⟩ ⟨1, 1⟩ (1/4) (by norm_num)).1
    (by norm_num [speed])).1 (by norm_num)

/-! ### Spawn-policy claims C10, C4, C2 -/

/-- C10: every ball created by `spawn_ball_system` from random draws
`r1, r2` in `[0, 1)` has both position coordinates in `[-5, 5)`, zero
velocity and zero target velocity. -/
theorem spawn_position_bounds (w : List SBall) (r1 r2 : ℚ)
    (h1 : 0 ≤ r1) (h2 : r1 < 1) (h3 : 0 ≤ r2) (h4 : r2 < 1)
    (hc : unownedCount w < 3) :
    ∃ nb, spawnBallSystem w r1 r2 = w ++ [nb] ∧
      -5 ≤ nb.position.x ∧ nb.position.x < 5 ∧
      -5 ≤ nb.position.y ∧ nb.position.y < 5 ∧
      nb.velocity = Vec2.zero ∧ nb.targetVelocity = Vec2.zero := by
  refine ⟨{ id := highestUnownedId w + 1,
            position := ⟨r1 * 10 - 5, r2 * 10 - 5⟩,
            velocity := Vec2.zero, targetVelocity := Vec2.zero,
            networkHandle := none }, ?_, ?_, ?_, ?_, ?_, rfl, rfl⟩
  · unfold spawnBallSystem
    rw [if_pos hc]
  · show -5 ≤ r1 * 10 - 5
    linarith
  · show r1 * 10 - 5 < 5
    linarith
  · show -5 ≤ r2 * 10 - 5
    linarith
  · show r2 * 10 - 5 < 5
    linarith

/-- Witness for C10 on the empty world with draws `r1 = r2 = 0`. -/
theorem spawn_position_bounds_witness :
    ∃ nb, spawnBallSystem [] 0 0 = [] ++ [nb] ∧
      -5 ≤ nb.position.x ∧ nb.position.x < 5 ∧
      -5 ≤ nb.position.y ∧ nb.position.y < 5 ∧
      nb.velocity = Vec2.zero ∧ nb.targetVelocity = Vec2.zero :=
  spawn_position_bounds [] 0 0 (by decide) (by decide) (by decide)
    (by decide) (by decide)

/-- One spawn tick changes the unowned count by exactly the spawn rule:
plus one when below the floor of 3, unchanged otherwise. -/
theorem unownedCount_spawn (w : List SBall) (r1 r2 : ℚ) :
    unownedCount (spawnBallSystem w r1 r2) =
      if unownedCount w < 3 then unownedCount w + 1 else unownedCount w := by
  by_cases h : unownedCount w < 3
  · rw [if_pos h]
    unfold spawnBallSystem
    rw [if_pos h]
    simp [unownedCount, unownedBalls, List.filter_append]
  · rw [if_neg h]
    unfold spawnBallSystem
    rw [if_neg h]

/-- Across `n` spawn ticks the unowned count reaches at least
`min 3 (start + n)`. -/
theorem spawnIter_count (n : ℕ) (w : List SBall) :
    min 3 (unownedCount w + n) ≤ unownedCount (spawnIter w n) := by
  induction n generalizing w with
  | zero =>
    simp only [spawnIter, Nat.add_zero]
    omega
  | succ n ih =>
    have h := ih (spawnBallSystem w 0 0)
    rw [unownedCount_spawn] at h
    simp only [spawnIter]
    by_cases hc : unownedCount w < 3
    · rw [if_pos hc] at h
      omega
    · rw [if_neg hc] at h
      omega

/-- C4 counterexample: on a world with no unowned balls (for example the
world at server start, before any ball exists), one run of
`spawn_ball_system` creates exactly one ball, so the tick ends with a single
unowned ball — the floor of 3 is not restored within that tick. -/
theorem spawn_floor_cex :
    unownedCount (spawnBallSystem [] 0 0) = 1 ∧
    ¬ 3 ≤ unownedCount (spawnBallSystem [] 0 0) := by
  constructor <;> decide

/-- C4 (amended): `spawn_ball_system` spawns at most one ball per tick: a
tick below the floor raises the unowned count by exactly one and a tick at or
above the floor leaves it unchanged (so a count of at least 3 is preserved);
the floor of 3 is only guaranteed after as many ticks as are missing, in
particular after any 3 consecutive ticks without connection events. -/
theorem spawn_floor (w : List SBall) (r1 r2 : ℚ) :
    unownedCount (spawnBallSystem w r1 r2) =
      (if unownedCount w < 3 then unownedCount w + 1 else unownedCount w) ∧
    (3 ≤ unownedCount w → 3 ≤ unownedCount (spawnBallSystem w r1 r2)) ∧
    3 ≤ unownedCount (spawnIter w 3) := by
  refine ⟨unownedCount_spawn w r1 r2, ?_, ?_⟩
  · intro h3
    rw [unownedCount_spawn]
    split <;> omega
  · have h := spawnIter_count 3 w
    exact le_trans (le_min le_rfl (by omega)) h

/-- Witness for C4 (amended): a world of three unowned balls keeps its floor
through a tick. -/
theorem spawn_floor_witness :
    3 ≤ unownedCount (spawnBallSystem (spawnIter [] 3) 0 0) :=
  (spawn_floor (spawnIter [] 3) 0 0).2.1 (by decide)

/-- Any starting accumulator is a lower bound of the `highest_id` fold. -/
theorem le_foldl_max (l : List SBall) (a : ℕ) :
    a ≤ l.foldl (fun acc b => max acc b.id) a := by
  induction l generalizing a with
  | nil => exact le_rfl
  | cons b rest ih => exact le_trans (le_max_left a b.id) (ih (max a b.id))

/-- Every listed ball's id is bounded by the `highest_id` fold. -/
theorem mem_le_foldl_max (l : List SBall) (b : SBall) (hb : b ∈ l) (a : ℕ) :
    b.id ≤ l.foldl (fun acc c => max acc c.id) a := by
  induction l generalizing a with
  | nil => cases hb
  | cons c rest ih =>
    simp only [List.foldl_cons]
    rcases List.mem_cons.mp hb with h | h
    · subst h
      exact le_trans (le_max_right a b.id) (le_foldl_max rest (max a b.id))
    · exact ih h (max a c.id)

/-- When no ball is owned, the unowned query sees the whole world. -/
theorem unownedBalls_eq_self (w : List SBall) (hall : ∀ b ∈ w, b.networkHandle = none) :
    unownedBalls w = w := by
  unfold unownedBalls
  rw [List.filter_eq_self]
  intro b hb
  rw [hall b hb]
  rfl

/-- C2 counterexample: in a world of balls 1, 2, 3 where ball 3 is bound to
connection 7, `spawn_ball_system` sees only two unowned balls with highest id
2 and spawns a new ball with id 3 — an identity already held by a live ball,
so two live balls share an identity and the assigned values are not strictly
increasing over the process lifetime. -/
theorem identity_unique_cex :
    (spawnBallSystem highOwnedWorld 0 0).map SBall.id = [1, 2, 3, 3] ∧
    ¬ ((spawnBallSystem highOwnedWorld 0 0).map SBall.id).Nodup := by
  constructor <;> decide

/-- C2 (amended): the next assigned identity is the highest identity among
the currently UNOWNED balls plus one.  As long as no live ball holds a
NetworkHandle this coincides with the highest existing identity plus one, so
the spawned identity is strictly greater than every live identity and
uniqueness is preserved; once a ball holding the highest identity is owned,
the identity can be reused (see the counterexample). -/
theorem identity_fresh_when_all_unowned (w : List SBall) (r1 r2 : ℚ)
    (hall : ∀ b ∈ w, b.networkHandle = none)
    (hnd : (w.map SBall.id).Nodup)
    (hc : unownedCount w < 3) :
    ∃ nb, spawnBallSystem w r1 r2 = w ++ [nb] ∧
      nb.id = highestUnownedId w + 1 ∧
      (∀ b ∈ w, b.id < nb.id) ∧
      ((spawnBallSystem w r1 r2).map SBall.id).Nodup := by
  have hlt : ∀ b ∈ w, b.id < highestUnownedId w + 1 := by
    intro b hb
    have hble : b.id ≤ highestUnownedId w := by
      unfold highestUnownedId
      rw [unownedBalls_eq_self w hall]
      exact mem_le_foldl_max w b hb 0
    exact Nat.lt_succ_of_le hble
  have heq : spawnBallSystem w r1 r2 =
      w ++ [{ id := highestUnownedId w + 1,
              position := ⟨r1 * 10 - 5, r2 * 10 - 5⟩,
              velocity := Vec2.zero, targetVelocity := Vec2.zero,
              networkHandle := none }] := by
    unfold spawnBallSystem
    rw [if_pos hc]
  refine ⟨_, heq, rfl, hlt, ?_⟩
  rw [heq, List.map_append, List.nodup_append]
  refine ⟨hnd, List.nodup_singleton _, ?_⟩
  intro a ha hb
  simp only [List.map_cons, List.map_nil, List.mem_singleton] at hb
  rcases List.mem_map.mp ha with ⟨b, hbw, rfl⟩
  exact absurd hb (Nat.ne_of_lt (hlt b hbw))

/-- Witness for C2 (amended) on a fully unowned world of balls 1 and 2. -/
theorem identity_fresh_witness :
    ∃ nb, spawnBallSystem twoUnownedWorld 0 0 = twoUnownedWorld ++ [nb] ∧
      nb.id = highestUnownedId twoUnownedWorld + 1 ∧
      (∀ b ∈ twoUnownedWorld, b.id < nb.id) ∧
      ((spawnBallSystem twoUnownedWorld 0 0).map SBall.id).Nodup :=
  identity_fresh_when_all_unowned twoUnownedWorld 0 0 (by decide) (by decide) (by decide)

/-! ### Broadcast change-detection claim C1 -/

/-- Target-velocity broadcast counts add over concatenation. -/
theorem tvBroadcastCount_append (a b : List (BallId × Comp)) :
    tvBroadcastCount (a ++ b) = tvBroadcastCount a + tvBroadcastCount b := by
  simp [tvBroadcastCount, List.filter_append]

/-- Position broadcast counts add over concatenation. -/
theorem posBroadcastCount_append (a b : List (BallId × Comp)) :
    posBroadcastCount (a ++ b) = posBroadcastCount a + posBroadcastCount b := by
  simp [posBroadcastCount, List.filter_append]

/-- The messages one tick emits for one unowned ball: since the wander input
writes the target velocity through `Mut<TargetVelocity>` and the integrator
writes the position through `Mut<Position>`, both mutation flags are set
every tick, so both components are broadcast every tick. -/
theorem serverTick_msgs (b : TrackedBall) (v : Vec2) (delta : ℚ) :
    (serverTick b v delta).2 =
      [(b.id, Comp.targetVelocity v),
       (b.id, Comp.position (updatePosition b.position
         (updateVelocity b.velocity v delta) delta))] := rfl

/-- C1 counterexample: starting from a settled ball (zero velocity, clear
flags), two consecutive ticks that write the SAME target-velocity value
`(1,0)` emit two target-velocity broadcasts, not the single broadcast the
value-level claim predicts: bevy 0.4 `Changed<T>` is a write flag, not a
value comparison. -/
theorem broadcast_value_level_cex :
    tvBroadcastCount (serverTicks restBall 0 [⟨1, 0⟩, ⟨1, 0⟩]).2 = 2 ∧
    tvBroadcastCount (serverTicks restBall 0 [⟨1, 0⟩, ⟨1, 0⟩]).2 ≠ 1 := by
  constructor <;> decide

/-- C1 (amended): the server broadcast is write-level change-detected, not
value-level: over any run of ticks on an unowned ball, exactly one
target-velocity broadcast and exactly one position broadcast are emitted per
tick — one per write, regardless of whether the written value differs from
the previous tick's value. -/
theorem broadcast_per_write (b : TrackedBall) (delta : ℚ) (ws : List Vec2) :
    tvBroadcastCount (serverTicks b delta ws).2 = ws.length ∧
    posBroadcastCount (serverTicks b delta ws).2 = ws.length := by
  induction ws generalizing b with
  | nil => constructor <;> rfl
  | cons v vs ih =>
    have h := ih (serverTick b v delta).1
    simp only [serverTicks, tvBroadcastCount_append, posBroadcastCount_append,
               serverTick_msgs, List.length_cons]
    constructor
    · rw [h.1]
      simp [tvBroadcastCount]
      omega
    · rw [h.2]
      simp [posBroadcastCount]
      omega

/-! ### Client ownership claim C3 -/

/-- Marking an entity `LocalPlayer` does not change the id column. -/
theorem markLocalPlayer_map_id (w : List CBall) (id : BallId) :
    (markLocalPlayer w id).map CBall.id = w.map CBall.id := by
  induction w with
  | nil => rfl
  | cons c rest ih =>
    simp only [markLocalPlayer]
    by_cases hc : (c.id == id) = true
    · simp [hc]
    · simp only [hc, Bool.false_eq_true, if_false, List.map_cons, ih]

/-- Any ball of the marked world is either an untouched original or carries
the marker together with the marked id. -/
theorem mem_markLocalPlayer (w : List CBall) (id : BallId) (b : CBall)
    (hb : b ∈ markLocalPlayer w id) :
    b ∈ w ∨ (b.id = id ∧ b.localPlayer = true) := by
  induction w with
  | nil => simp [markLocalPlayer] at hb
  | cons c rest ih =>
    simp only [markLocalPlayer] at hb
    by_cases hc : (c.id == id) = true
    · rw [if_pos hc] at hb
      rcases List.mem_cons.mp hb with h | h
      · subst h
        refine Or.inr ⟨?_, rfl⟩
        show c.id = id
        exact eq_of_beq hc
      · exact Or.inl (List.mem_cons_of_mem c h)
    · rw [if_neg hc] at hb
      rcases List.mem_cons.mp hb with h | h
      · exact Or.inl (h ▸ List.mem_cons_self c rest)
      · rcases ih h with h' | h'
        · exact Or.inl (List.mem_cons_of_mem c h')
        · exact Or.inr h'

/-- A failed client-side id lookup means no ball has that id. -/
theorem findByIdC_none (w : List CBall) (id : BallId) (h : findByIdC w id = none) :
    ∀ b ∈ w, b.id ≠ id := by
  intro b hb
  have := List.find?_eq_none.mp h b hb
  intro heq
  exact this (by simp [heq])

/-- Processing `Welcome` messages that all carry one identity `id` preserves:
distinct ids, and the fact that every `LocalPlayer` ball has id `id`. -/
theorem welcome_invariant (id : BallId) (ids : List BallId)
    (hids : ∀ i ∈ ids, i = id) (w : List CBall)
    (hnd : (w.map CBall.id).Nodup)
    (hloc : ∀ b ∈ w, b.localPlayer = true → b.id = id) :
    ((processWelcomes w ids).map CBall.id).Nodup ∧
    (∀ b ∈ processWelcomes w ids, b.localPlayer = true → b.id = id) := by
  induction ids generalizing w with
  | nil => exact ⟨hnd, hloc⟩
  | cons i rest ih =>
    have hi : i = id := hids i (List.mem_cons_self i rest)
    subst hi
    have hrest : ∀ j ∈ rest, j = i := fun j hj => hids j (List.mem_cons_of_mem i hj)
    have hstep : ((processWelcome w i).map CBall.id).Nodup ∧
        (∀ b ∈ processWelcome w i, b.localPlayer = true → b.id = i) := by
      unfold processWelcome
      cases hfind : findByIdC w i with
      | some c =>
        constructor
        · rw [markLocalPlayer_map_id]
          exact hnd
        · intro b hb hbl
          rcases mem_markLocalPlayer w i b hb with h | h
          · exact hloc b h hbl
          · exact h.1
      | none =>
        have hfresh := findByIdC_none w i hfind
        constructor
        · rw [List.map_append, List.nodup_append]
          refine ⟨hnd, List.nodup_singleton _, ?_⟩
          intro a ha hb
          simp only [List.map_cons, List.map_nil, List.mem_singleton] at hb
          rcases List.mem_map.mp ha with ⟨b, hbw, rfl⟩
          exact hfresh b hbw (by simpa [CBall.new] using hb)
        · intro b hb hbl
          rcases List.mem_append.mp hb with h | h
          · exact hloc b h hbl
          · simp only [List.mem_singleton] at h
            subst h
            rfl
      -- close the two goals produced by the cases split before `Nodup`
    exact ih hrest (processWelcome w i) hstep.1 hstep.2

/-- With distinct ids, if every `LocalPlayer` ball shares one id then at most
one ball carries the marker. -/
theorem countLocal_le_one (id : BallId) (w : List CBall)
    (hnd : (w.map CBall.id).Nodup)
    (hloc : ∀ b ∈ w, b.localPlayer = true → b.id = id) :
    countLocal w ≤ 1 := by
  induction w with
  | nil => exact Nat.zero_le 1
  | cons b rest ih =>
    have hnd' : (rest.map CBall.id).Nodup := (List.nodup_cons.mp hnd).2
    have hbid : b.id ∉ rest.map CBall.id := (List.nodup_cons.mp hnd).1
    by_cases hb : b.localPlayer = true
    · have hzero : countLocal rest = 0 := by
        rw [countLocal, List.length_eq_zero, List.filter_eq_nil_iff]
        intro c hc hcl
        have hcid : c.id = id := hloc c (List.mem_cons_of_mem b hc) hcl
        have hbid' : b.id = id := hloc b (List.mem_cons_self b rest) hb
        exact hbid (List.mem_map.mpr ⟨c, hc, by rw [hcid, hbid']⟩)
      have hcons : countLocal (b :: rest) = countLocal rest + 1 := by
        simp [countLocal, List.filter_cons, hb]
      omega
    · have := ih hnd' (fun c hc hcl => hloc c (List.mem_cons_of_mem b hc) hcl)
      simpa [countLocal, List.filter_cons, hb] using this

/-- C3 counterexample: from a client with no balls, the Welcome sequence
`[1, 2]` (two Welcomes carrying distinct identities) leaves TWO balls
carrying the `LocalPlayer` marker: each unknown welcomed identity spawns a
fresh ball already marked `LocalPlayer`, and nothing ever clears the marker
of the previous owner. -/
theorem local_player_exclusive_cex :
    countLocal (processWelcomes [] [1, 2]) = 2 ∧
    ¬ countLocal (processWelcomes [] [1, 2]) ≤ 1 := by
  constructor <;> decide

/-- C3 (amended): ownership exclusivity holds only for Welcome sequences
that all carry the same identity: starting from a client state with distinct
ball ids and no `LocalPlayer` ball, processing any such sequence leaves at
most one ball carrying the marker.  Welcomes with distinct identities each
mark or spawn their own ball, so exclusivity fails in general. -/
theorem local_player_exclusive_same_id (w : List CBall) (id : BallId)
    (ids : List BallId)
    (hnd : (w.map CBall.id).Nodup)
    (hloc : ∀ b ∈ w, b.localPlayer = false)
    (hids : ∀ i ∈ ids, i = id) :
    countLocal (processWelcomes w ids) ≤ 1 := by
  have h := welcome_invariant id ids hids w hnd
    (fun b hb hl => absurd hl (by simp [hloc b hb]))
  exact countLocal_le_one id _ h.1 h.2

/-- Witness for C3 (amended): three Welcomes for identity 7 on a client that
already replicates ball 7 leave exactly one LocalPlayer. -/
theorem local_player_exclusive_witness :
    countLocal (processWelcomes [CBall.new 7] [7, 7, 7]) ≤ 1 :=
  local_player_exclusive_same_id [CBall.new 7] 7 [7, 7, 7] (by decide) (by decide)
    (by decide)

/-! ### Connection handling claim C7 -/

/-- Overwriting one component leaves a server ball's id unchanged. -/
theorem setCompS_id (b : SBall) (c : Comp) : (b.setComp c).id = b.id := by
  cases c <;> rfl

/-- Overwriting one component leaves a server ball's ownership unchanged. -/
theorem setCompS_networkHandle (b : SBall) (c : Comp) :
    (b.setComp c).networkHandle = b.networkHandle := by
  cases c <;> rfl

/-- Overwriting one component leaves a client ball's id unchanged. -/
theorem setCompC_id (b : CBall) (c : Comp) : (b.setComp c).id = b.id := by
  cases c <;> rfl

/-- Overwriting one component never grants or removes `LocalPlayer`. -/
theorem setCompC_localPlayer (b : CBall) (c : Comp) :
    (b.setComp c).localPlayer = b.localPlayer := by
  cases c <;> rfl

/-- Unowned count of a cons cell. -/
theorem unownedCount_cons (c : SBall) (l : List SBall) :
    unownedCount (c :: l) =
      (if c.networkHandle.isNone then 1 else 0) + unownedCount l := by
  by_cases hc : c.networkHandle.isNone
  · simp [unownedCount, unownedBalls, List.filter_cons, hc]
    omega
  · simp [unownedCount, unownedBalls, List.filter_cons, hc]

/-- Owned-by count of a cons cell. -/
theorem ownedByCount_cons (c : SBall) (l : List SBall) (hd : ℕ) :
    ownedByCount (c :: l) hd =
      (if c.networkHandle = some hd then 1 else 0) + ownedByCount l hd := by
  by_cases hc : c.networkHandle = some hd
  · simp [ownedByCount, List.filter_cons, hc]
    omega
  · simp [ownedByCount, List.filter_cons, hc]

/-- Binding a handle never changes the number of balls. -/
theorem bindFirstUnowned_length (w : List SBall) (hd : ℕ) :
    (bindFirstUnowned w hd).length = w.length := by
  induction w with
  | nil => rfl
  | cons c rest ih =>
    by_cases hc : c.networkHandle.isNone <;>
      simp [bindFirstUnowned, hc, ih]

/-- The ball returned by the unowned query reappears in the bound world with
the peer's handle attached. -/
theorem bindFirstUnowned_mem (w : List SBall) (hd : ℕ) (b : SBall)
    (hb : firstUnowned w = some b) :
    { b with networkHandle := some hd } ∈ bindFirstUnowned w hd := by
  induction w with
  | nil => simp [firstUnowned, unownedBalls] at hb
  | cons c rest ih =>
    by_cases hc : c.networkHandle.isNone
    · have hbc : b = c := by
        simp [firstUnowned, unownedBalls, List.filter_cons, hc] at hb
        exact hb.symm
      subst hbc
      simp only [bindFirstUnowned, if_pos hc]
      exact List.mem_cons_self _ _
    · have hb' : firstUnowned rest = some b := by
        simpa [firstUnowned, unownedBalls, List.filter_cons, hc] using hb
      simp only [bindFirstUnowned, if_neg hc]
      exact List.mem_cons_of_mem _ (ih hb')

/-- Binding consumes exactly one unowned ball and creates exactly one ball
owned by the connecting peer. -/
theorem bindFirstUnowned_counts (w : List SBall) (hd : ℕ)
    (hw : firstUnowned w ≠ none) :
    unownedCount (bindFirstUnowned w hd) + 1 = unownedCount w ∧
    ownedByCount (bindFirstUnowned w hd) hd = ownedByCount w hd + 1 := by
  induction w with
  | nil => simp [firstUnowned, unownedBalls] at hw
  | cons c rest ih =>
    by_cases hc : c.networkHandle.isNone
    · have hcn : c.networkHandle = none := Option.isNone_iff_eq_none.mp hc
      simp only [bindFirstUnowned, if_pos hc]
      constructor
      · rw [unownedCount_cons, unownedCount_cons]
        simp [hcn]
        omega
      · rw [ownedByCount_cons, ownedByCount_cons]
        simp [hcn]
        omega
    · have hw' : firstUnowned rest ≠ none := by
        simpa [firstUnowned, unownedBalls, List.filter_cons, hc] using hw
      obtain ⟨h1, h2⟩ := ih hw'
      simp only [bindFirstUnowned, if_neg hc]
      constructor
      · rw [unownedCount_cons, unownedCount_cons]
        omega
      · rw [ownedByCount_cons, ownedByCount_cons]
        omega

/-- C7: on a `Connected(peer)` event with no unowned ball the handler aborts
the process (`none`); with at least one unowned ball it binds exactly one
unowned ball to the peer (the unowned count drops by one, the peer's owned
count rises by one, no ball is created or destroyed) and sends a reliable
`Welcome` carrying exactly that ball's identity to that peer. -/
theorem connect_binds_or_fatal (w : List SBall) (h : ℕ) :
    (unownedCount w = 0 → handleConnectedEvent w h = none) ∧
    (∀ b, firstUnowned w = some b →
      b.networkHandle = none ∧
      handleConnectedEvent w h =
        some (bindFirstUnowned w h, ServerMessage.welcome b.id) ∧
      { b with networkHandle := some h } ∈ bindFirstUnowned w h ∧
      (bindFirstUnowned w h).length = w.length ∧
      unownedCount (bindFirstUnowned w h) + 1 = unownedCount w ∧
      ownedByCount (bindFirstUnowned w h) h = ownedByCount w h + 1) := by
  constructor
  · intro h0
    have hempty : unownedBalls w = [] := List.length_eq_zero.mp h0
    unfold handleConnectedEvent firstUnowned
    rw [hempty]
    rfl
  · intro b hb
    have hbmem : b ∈ unownedBalls w := by
      unfold firstUnowned at hb
      exact List.mem_of_mem_head? hb
    have hbn : b.networkHandle = none := by
      have := List.of_mem_filter hbmem
      exact Option.isNone_iff_eq_none.mp this
    obtain ⟨hcnt, hown⟩ := bindFirstUnowned_counts w h (by rw [hb]; exact Option.some_ne_none b)
    refine ⟨hbn, ?_, bindFirstUnowned_mem w h b hb, bindFirstUnowned_length w h, hcnt, hown⟩
    unfold handleConnectedEvent
    rw [hb]

/-- Witness for C7 on the empty world (fatal branch) and on a world with one
unowned ball of id 4 connecting as peer 5 (binding branch). -/
theorem connect_binds_witness :
    handleConnectedEvent [] 5 = none ∧
    handleConnectedEvent oneUnownedWorld 5 =
      some (bindFirstUnowned oneUnownedWorld 5, ServerMessage.welcome 4) := by
  constructor
  · exact (connect_binds_or_fatal [] 5).1 (by decide)
  · exact ((connect_binds_or_fatal oneUnownedWorld 5).2
      { id := 4, position := Vec2.zero, velocity := Vec2.zero,
        targetVelocity := Vec2.zero, networkHandle := none } (by decide)).2.1

/-! ### Component message claims C8, C9 -/

/-- Overwriting the found server ball's component: the lookup afterwards sees
exactly the overwritten ball, the ball count is unchanged, and every ball
with a different id survives untouched. -/
theorem applyCompS_spec (w : List SBall) (id : BallId) (c : Comp) (b : SBall)
    (hb : findByIdS w id = some b) :
    findByIdS (applyCompS w id c) id = some (b.setComp c) ∧
    (applyCompS w id c).length = w.length ∧
    ∀ b' ∈ w, b'.id ≠ id → b' ∈ applyCompS w id c := by
  induction w with
  | nil => simp [findByIdS] at hb
  | cons d rest ih =>
    by_cases hd : (d.id == id) = true
    · have hdb : d = b := by
        have : findByIdS (d :: rest) id = some d := by
          unfold findByIdS
          exact List.find?_cons_of_pos rest hd
        rw [this] at hb
        exact Option.some_injective _ hb
      subst hdb
      simp only [applyCompS, if_pos hd]
      refine ⟨?_, by simp, ?_⟩
      · have hsc : ((d.setComp c).id == id) = true := by
          rw [setCompS_id]
          exact hd
        unfold findByIdS
        exact List.find?_cons_of_pos _ hsc
      · intro b' hb' hne
        rcases List.mem_cons.mp hb' with h | h
        · subst h
          exact absurd (eq_of_beq hd) hne
        · exact List.mem_cons_of_mem _ h
    · have hb' : findByIdS rest id = some b := by
        have : findByIdS (d :: rest) id = findByIdS rest id := by
          unfold findByIdS
          exact List.find?_cons_of_neg rest hd
        rwa [this] at hb
      obtain ⟨h1, h2, h3⟩ := ih hb'
      simp only [applyCompS, if_neg hd]
      refine ⟨?_, by simp [h2], ?_⟩
      · have : findByIdS (d :: applyCompS rest id c) id =
            findByIdS (applyCompS rest id c) id := by
          unfold findByIdS
          exact List.find?_cons_of_neg _ hd
        rw [this]
        exact h1
      · intro b' hb' hne
        rcases List.mem_cons.mp hb' with h | h
        · subst h
          exact List.mem_cons_self _ _
        · exact List.mem_cons_of_mem _ (h3 b' h hne)

/-- Client counterpart of `applyCompS_spec`. -/
theorem applyCompC_spec (w : List CBall) (id : BallId) (c : Comp) (b : CBall)
    (hb : findByIdC w id = some b) :
    findByIdC (applyCompC w id c) id = some (b.setComp c) ∧
    (applyCompC w id c).length = w.length ∧
    ∀ b' ∈ w, b'.id ≠ id → b' ∈ applyCompC w id c := by
  induction w with
  | nil => simp [findByIdC] at hb
  | cons d rest ih =>
    by_cases hd : (d.id == id) = true
    · have hdb : d = b := by
        have : findByIdC (d :: rest) id = some d := by
          unfold findByIdC
          exact List.find?_cons_of_pos rest hd
        rw [this] at hb
        exact Option.some_injective _ hb
      subst hdb
      simp only [applyCompC, if_pos hd]
      refine ⟨?_, by simp, ?_⟩
      · have hsc : ((d.setComp c).id == id) = true := by
          rw [setCompC_id]
          exact hd
        unfold findByIdC
        exact List.find?_cons_of_pos _ hsc
      · intro b' hb' hne
        rcases List.mem_cons.mp hb' with h | h
        · subst h
          exact absurd (eq_of_beq hd) hne
        · exact List.mem_cons_of_mem _ h
    · have hb' : findByIdC rest id = some b := by
        have : findByIdC (d :: rest) id = findByIdC rest id := by
          unfold findByIdC
          exact List.find?_cons_of_neg rest hd
        rwa [this] at hb
      obtain ⟨h1, h2, h3⟩ := ih hb'
      simp only [applyCompC, if_neg hd]
      refine ⟨?_, by simp [h2], ?_⟩
      · have : findByIdC (d :: applyCompC rest id c) id =
            findByIdC (applyCompC rest id c) id := by
          unfold findByIdC
          exact List.find?_cons_of_neg _ hd
        rw [this]
        exact h1
      · intro b' hb' hne
        rcases List.mem_cons.mp hb' with h | h
        · subst h
          exact List.mem_cons_self _ _
        · exact List.mem_cons_of_mem _ (h3 b' h hne)

/-- C8: client handling of one inbound `(id, component)` message is the
three-way case split of `read_component_channel_system`: a `LocalPlayer` ball
with that id means the message is discarded and the world is unchanged; an
existing non-local ball has exactly that component overwritten (lookup now
returns the overwritten ball, the count is unchanged, other balls survive);
an unknown id appends a fresh non-local ball carrying that id and the
received component, with every other component at its default. -/
theorem client_component_case_split (w : List CBall) (id : BallId) (c : Comp) :
    (∀ b, findByIdC w id = some b → b.localPlayer = true →
      clientReadComponent w id c = w) ∧
    (∀ b, findByIdC w id = some b → b.localPlayer = false →
      findByIdC (clientReadComponent w id c) id = some (b.setComp c) ∧
      (clientReadComponent w id c).length = w.length ∧
      (∀ b' ∈ w, b'.id ≠ id → b' ∈ clientReadComponent w id c)) ∧
    (findByIdC w id = none →
      clientReadComponent w id c = w ++ [(CBall.new id).setComp c] ∧
      ((CBall.new id).setComp c).localPlayer = false ∧
      ((CBall.new id).setComp c).id = id) := by
  refine ⟨?_, ?_, ?_⟩
  · intro b hb hl
    unfold clientReadComponent
    rw [hb]
    simp [hl]
  · intro b hb hl
    have hred : clientReadComponent w id c = applyCompC w id c := by
      unfold clientReadComponent
      rw [hb]
      simp [hl]
    rw [hred]
    exact applyCompC_spec w id c b hb
  · intro hn
    refine ⟨?_, ?_, ?_⟩
    · unfold clientReadComponent
      rw [hn]
    · rw [setCompC_localPlayer]
      rfl
    · rw [setCompC_id]
      rfl

/-- Witness for C8: the three branches at concrete inputs — a position update
for the local ball 1 is discarded, one for remote ball 2 lands in the lookup,
and one for unknown ball 9 spawns a replica. -/
theorem client_component_witness :
    clientReadComponent localWorld 1 (Comp.position ⟨3, 4⟩) = localWorld ∧
    findByIdC (clientReadComponent remoteWorld 2 (Comp.position ⟨3, 4⟩)) 2 =
      some ((CBall.new 2).setComp (Comp.position ⟨3, 4⟩)) ∧
    clientReadComponent [] 9 (Comp.position ⟨3, 4⟩) =
      [] ++ [(CBall.new 9).setComp (Comp.position ⟨3, 4⟩)] := by
  refine ⟨?_, ?_, ?_⟩
  · exact (client_component_case_split localWorld 1 (Comp.position ⟨3, 4⟩)).1
      { CBall.new 1 with localPlayer := true } (by decide) (by decide)
  · exact ((client_component_case_split remoteWorld 2 (Comp.position ⟨3, 4⟩)).2.1
      (CBall.new 2) (by decide) (by decide)).1
  · exact ((client_component_case_split [] 9 (Comp.position ⟨3, 4⟩)).2.2 (by decide)).1

/-- C9: server handling of one inbound `(id, component)` message: when a ball
with that id exists, exactly that component is overwritten verbatim — with no
validation and no ownership check, the ball's NetworkHandle (whoever owns it)
is untouched, the count is unchanged and other balls survive; when no such
ball exists the message is silently ignored and the world is returned exactly
as it was. -/
theorem server_component_case_split (w : List SBall) (id : BallId) (c : Comp) :
    (∀ b, findByIdS w id = some b →
      findByIdS (serverReadComponent w id c) id = some (b.setComp c) ∧
      (b.setComp c).networkHandle = b.networkHandle ∧
      (serverReadComponent w id c).length = w.length ∧
      (∀ b' ∈ w, b'.id ≠ id → b' ∈ serverReadComponent w id c)) ∧
    (findByIdS w id = none → serverReadComponent w id c = w) := by
  constructor
  · intro b hb
    have hred : serverReadComponent w id c = applyCompS w id c := by
      unfold serverReadComponent
      rw [hb]
    obtain ⟨h1, h2, h3⟩ := applyCompS_spec w id c b hb
    rw [hred]
    exact ⟨h1, setCompS_networkHandle b c, h2, h3⟩
  · intro hn
    unfold serverReadComponent
    rw [hn]

/-- Witness for C9: a target-velocity update for the ball of id 3 owned by
peer 7 is applied verbatim even though it could come from any peer, and an
update for unknown id 9 leaves the world untouched. -/
theorem server_component_witness :
    findByIdS (serverReadComponent highOwnedWorld 3 (Comp.targetVelocity ⟨1, 0⟩)) 3 =
      some (SBall.setComp ⟨3, Vec2.zero, Vec2.zero, Vec2.zero, some 7⟩
        (Comp.targetVelocity ⟨1, 0⟩)) ∧
    serverReadComponent highOwnedWorld 9 (Comp.targetVelocity ⟨1, 0⟩) = highOwnedWorld := by
  constructor
  · exact ((server_component_case_split highOwnedWorld 3 (Comp.targetVelocity ⟨1, 0⟩)).1
      ⟨3, Vec2.zero, Vec2.zero, Vec2.zero, some 7⟩ (by decide)).1
  · exact (server_component_case_split highOwnedWorld 9 (Comp.targetVelocity ⟨1, 0⟩)).2
      (by decide)

end Arugio
